import Mathlib

/-!
Shallow embedding of the freeswitch-esl protocol engine
(src/connection.rs, src/esl.rs, src/outbound.rs) and proofs about it.

Machinery external to the engine (tokio sockets, serde_json parsing,
oneshot channels) is modelled explicitly: a oneshot send to a dropped
receiver is a Bool-valued aliveness test, a Rust panic is the error arm
of an `Except String`, and JSON parsing is a function parameter, since
the spec treats the JSON decoder as an external collaborator.
-/

/-- Model of a serde_json Value as stored in event headers and parsed
event bodies (an external collaborator per the spec). -/
inductive JValue where
  | str : String → JValue
  | num : Int → JValue
  | bool : Bool → JValue
  | null : JValue
deriving DecidableEq, Repr

/-- Value.as_str from serde_json: Some for string values, None otherwise. -/
def JValue.as_str : JValue → Option String
  | .str s => some s
  | _ => none

/-- HashMap.get on a string-keyed association list (keys unique in any
map the code builds, since HashMap insert replaces). -/
def assocGet {α : Type} (m : List (String × α)) (k : String) : Option α :=
  match m with
  | [] => none
  | (k0, v) :: rest => if k0 = k then some v else assocGet rest k

/-- HashMap.remove: erase every binding of the key (at most one exists
under the HashMap unique-key discipline). -/
def eraseKey {α : Type} (m : List (String × α)) (k : String) : List (String × α) :=
  m.filter (fun kv => kv.1 ≠ k)

/-- HashMap.insert: replaces any existing binding of the key. -/
def insertAssoc {α : Type} (m : List (String × α)) (k : String) (v : α) :
    List (String × α) :=
  (k, v) :: eraseKey m k

/-- Modelled from the spec: crate code module (not under src/) defines the
response code enum with the three values OK, ERR, UNKNOWN. -/
inductive Code where
  | Ok : Code
  | Err : Code
  | Unknown : Code
deriving DecidableEq, Repr

/-- Modelled from the spec: crate code module (not under src/) parses the
code token; the protocol-defined tokens map to OK and ERR, anything else
is UNKNOWN, a non-fatal pass-through. -/
def parse_code (s : String) : Code :=
  if s = "+OK" then .Ok else if s = "-ERR" then .Err else .Unknown

/-- Modelled from the spec: crate error module (not under src/) defines the
typed failures surfaced to callers. -/
inductive EslError where
  | InternalError : String → EslError
  | AuthFailed : EslError
  | ApiError : String → EslError
deriving DecidableEq, Repr

/-- Modelled from the spec: crate event module (not under src/) defines the
parsed protocol message: a header mapping plus an optional raw body. -/
structure Event where
  headers : List (String × JValue)
  body : Option String
deriving DecidableEq, Repr

/-- First index of a whitespace character, as body.find(char::is_whitespace)
computes on the underlying characters. -/
def findWhitespace : List Char → Option Nat
  | [] => none
  | c :: cs => if c.isWhitespace then some 0 else (findWhitespace cs).map (· + 1)

/-- parse_api_response (connection.rs:505-519) on the character list of the
body: split at the first whitespace; the prefix is the code token, the
remainder minus the trailing terminator character is the text. -/
def parse_api_response_chars (body : List Char) : Except EslError (Code × List Char) :=
  match findWhitespace body with
  | none => .error (.InternalError "Unable to find space index")
  | some space_index =>
    let code := body.take space_index
    let text_start := space_index + 1
    let body_length := body.length
    let text :=
      if text_start < body_length then
        (body.drop text_start).take (body_length - 1 - text_start)
      else
        []
    .ok (parse_code (String.mk code), text)

/-- parse_api_response (connection.rs:505-519) at the String level. -/
def parse_api_response (body : String) : Except EslError (Code × String) :=
  match parse_api_response_chars body.data with
  | .error e => .error e
  | .ok (c, t) => .ok (c, String.mk t)

/-- Connection type tag (esl.rs:7-10). -/
inductive EslConnectionType where
  | Inbound : EslConnectionType
  | Outbound : EslConnectionType
deriving DecidableEq, Repr

/-- Caller-visible state of an EslConnection (connection.rs:23-31): the
pending-reply queue (slot ids, oldest first), the background job map,
the connected flag, the optional bound call id, a counter supplying
fresh oneshot-slot ids, and the ordered log of bytes written to the
socket. -/
structure ConnState where
  commands : List Nat
  background_jobs : List (String × Nat)
  connected : Bool
  call_uuid : Option String
  nextSlot : Nat
  sent : List String
deriving DecidableEq, Repr

/-- Fresh connection state as built at connection.rs:85-93: empty queue,
empty job map, connected false, no call id. -/
def initConn : ConnState :=
  { commands := [], background_jobs := [], connected := false,
    call_uuid := none, nextSlot := 0, sent := [] }

/-- One observable step of send_recv, in the order the code performs them. -/
inductive SRAction where
  | sendBytes : String → SRAction
  | createSlot : Nat → SRAction
  | pushSlot : Nat → SRAction
  | awaitSlot : Nat → SRAction
deriving DecidableEq, Repr

def SRAction.isSend : SRAction → Bool
  | .sendBytes _ => true
  | _ => false

def SRAction.isPush : SRAction → Bool
  | .pushSlot _ => true
  | _ => false

/-- send_recv (connection.rs:56-64). The code first writes the command to
the socket (line 58 self.send), then creates the oneshot channel
(line 59), then pushes its sender onto the pending-reply queue
(line 61), then awaits the receiver (line 63). Returns the new state,
the slot id created, and the step trace in execution order. -/
def send_recv (s : ConnState) (item : String) : ConnState × Nat × List SRAction :=
  let s1 := { s with sent := s.sent ++ [item] }
  let slot := s1.nextSlot
  let s2 := { s1 with nextSlot := slot + 1 }
  let s3 := { s2 with commands := s2.commands ++ [slot] }
  (s3, slot,
    [.sendBytes item, .createSlot slot, .pushSlot slot, .awaitSlot slot])

/-- The ordering property the claim asserts of a send_recv trace: the slot
is pushed onto the pending-reply queue strictly before the command bytes
are sent. -/
def slotRegisteredBeforeSend (tr : List SRAction) : Bool :=
  match tr.findIdx? SRAction.isPush, tr.findIdx? SRAction.isSend with
  | some i, some j => i < j
  | _, _ => false

/-- State shared between callers and the receive loop
(connection.rs:73-77): the pending-reply queue and the background job
map, as seen through inner_commands and inner_background_jobs. -/
structure LoopState where
  commands : List Nat
  background_jobs : List (String × Nat)
deriving DecidableEq, Repr

/-- Control outcome of one receive-loop iteration. panicked carries the
expect message; deadlock models the loop blocking forever on a lock it
already holds; terminated models return. -/
inductive StepResult where
  | cont : StepResult
  | terminated : StepResult
  | deadlock : StepResult
  | panicked : String → StepResult
deriving DecidableEq, Repr

/-- Everything one receive-loop iteration produces: the new shared state,
the (slot, event) deliveries made through oneshot senders, the parsed
bodies forwarded to the listener channel, and the control outcome. -/
structure StepOut where
  st : LoopState
  delivered : List (Nat × Event)
  forwarded : List (List (String × JValue))
  result : StepResult
deriving Repr

/-- tx.send(event).expect(msg) on a oneshot sender: delivery succeeds when
the receiver is still alive; when the caller has dropped its receiver,
send returns Err and expect panics with msg. -/
def txSendExpect (alive : Nat → Bool) (slot : Nat) (ev : Event) (msg : String)
    (st : LoopState) (deliveredSt : LoopState) : StepOut :=
  if alive slot then ⟨deliveredSt, [(slot, ev)], [], .cont⟩
  else ⟨st, [], [], .panicked msg⟩

/-- The synchronous-reply fallthrough (connection.rs:191-198): pop the head
of the pending-reply queue, if any, and fulfil it with this event via
tx.send(event).expect("msg"). -/
def popReply (alive : Nat → Bool) (ev : Event) (st : LoopState) : StepOut :=
  match st.commands with
  | [] => ⟨st, [], [], .cont⟩
  | slot :: rest =>
    txSendExpect alive slot ev "msg" { st with commands := rest }
      { st with commands := rest }

/-- Background-job fulfilment (connection.rs:141-149 and 160-169): remove
the slot registered under the uuid, if any, and deliver the event to it
with tx.send(event).expect(...). Not finding the uuid is a no-op. -/
def fulfillJob (alive : Nat → Bool) (ev : Event) (job_uuid : String)
    (st : LoopState) : StepOut :=
  match assocGet st.background_jobs job_uuid with
  | none => ⟨st, [], [], .cont⟩
  | some slot =>
    let st2 := { st with background_jobs := eraseKey st.background_jobs job_uuid }
    txSendExpect alive slot ev "Unable to send channel message from bgapi" st st2

/-- Forward to the listener channel when one was supplied
(connection.rs:178-184): best effort, a send error is only logged. -/
def forwardToListener (hasListener : Bool) (event_body : List (String × JValue))
    (st : LoopState) : StepOut :=
  ⟨st, [], if hasListener then [event_body] else [], .cont⟩

/-- The text/event-json branch after the body has been parsed
(connection.rs:135-184). If the body holds a Job-UUID, unwrap it as a
string (panicking on a non-string) and try to fulfil that job, then
continue; else if it holds an Application-UUID whose Event-Name is
CHANNEL_EXECUTE_COMPLETE, do the same under that id; otherwise fall
through to the listener forward. -/
def handle_event_body (alive : Nat → Bool) (hasListener : Bool) (ev : Event)
    (event_body : List (String × JValue)) (st : LoopState) : StepOut :=
  match assocGet event_body "Job-UUID" with
  | some v =>
    match v.as_str with
    | none => ⟨st, [], [], .panicked "called Option::unwrap on a None value"⟩
    | some job_uuid => fulfillJob alive ev job_uuid st
  | none =>
    match assocGet event_body "Application-UUID" with
    | some av =>
      match av.as_str with
      | none => ⟨st, [], [], .panicked "called Option::unwrap on a None value"⟩
      | some job_uuid =>
        match assocGet event_body "Event-Name" with
        | some nv =>
          match nv.as_str with
          | some event_name =>
            if event_name = "CHANNEL_EXECUTE_COMPLETE" then
              fulfillJob alive ev job_uuid st
            else
              forwardToListener hasListener event_body st
          | none => forwardToListener hasListener event_body st
        | none => forwardToListener hasListener event_body st
    | none => forwardToListener hasListener event_body st

/-- The text/disconnect-notice branch (connection.rs:103-123). The if-let
scrutinee pops the front slot while holding the commands mutex guard,
whose temporary lives to the end of the whole if-let; the popped sender
is dropped. With a non-empty queue the body then evaluates
inner_commands.lock().await again while that guard is still held, so the
tokio mutex never becomes available and the loop blocks forever (the
for loop inside would in any case only drop mutable references, leaving
every remaining sender in the queue). With an empty queue the if-let
body is skipped and the loop returns. -/
def handle_disconnect (st : LoopState) : StepOut :=
  match st.commands with
  | [] => ⟨st, [], [], .terminated⟩
  | _ :: rest => ⟨{ st with commands := rest }, [], [], .deadlock⟩

/-- One iteration of the receive loop on a decoded event
(connection.rs:100-212). Dispatch on the Content-Type header, whose
value is unwrapped as a string (line 102); disconnect-notice and
event-json have dedicated branches, any other value and a missing
header both fall through to the pending-reply pop. The event-json
branch panics when the body is absent (line 130) or fails to parse
(line 133). JSON parsing itself is the external collaborator
parse_json_body, passed as a function. -/
def handle_message (alive : Nat → Bool) (hasListener : Bool)
    (parseJson : String → Option (List (String × JValue)))
    (ev : Event) (st : LoopState) : StepOut :=
  match assocGet ev.headers "Content-Type" with
  | some ctv =>
    match ctv.as_str with
    | none => ⟨st, [], [], .panicked "called Option::unwrap on a None value"⟩
    | some ct =>
      if ct = "text/disconnect-notice" then
        handle_disconnect st
      else if ct = "text/event-json" then
        match ev.body with
        | none => ⟨st, [], [], .panicked "Unable to get body of event-json"⟩
        | some data =>
          match parseJson data with
          | none => ⟨st, [], [], .panicked "Unable to parse body of event-json"⟩
          | some event_body => handle_event_body alive hasListener ev event_body st
      else
        popReply alive ev st
  | none => popReply alive ev st

/-- Run of the receive loop over a list of decoded events: iterate
handle_message, accumulating deliveries and listener forwards, stopping
as soon as an iteration does not continue. The result field is cont when
every message was consumed and the loop is still reading. -/
def process_messages (alive : Nat → Bool) (hasListener : Bool)
    (parseJson : String → Option (List (String × JValue))) :
    List Event → LoopState → StepOut
  | [], st => ⟨st, [], [], .cont⟩
  | ev :: evs, st =>
    let out := handle_message alive hasListener parseJson ev st
    match out.result with
    | .cont =>
      let rest := process_messages alive hasListener parseJson evs out.st
      ⟨rest.st, out.delivered ++ rest.delivered, out.forwarded ++ rest.forwarded,
        rest.result⟩
    | r => ⟨out.st, out.delivered, out.forwarded, r⟩

/-- Issue a sequence of send_recv calls in order (each awaited before the
next), returning the final state and the slot ids created in order. -/
def run_send_recvs (s : ConnState) : List String → ConnState × List Nat
  | [] => (s, [])
  | item :: items =>
    let r1 := send_recv s item
    let r2 := run_send_recvs r1.1 items
    (r2.1, r1.2.1 :: r2.2)

/-- An event the receive loop treats as a synchronous command reply: its
Content-Type header is absent, or is a string that is neither
text/disconnect-notice nor text/event-json. -/
def isPlainReply (ev : Event) : Bool :=
  match assocGet ev.headers "Content-Type" with
  | none => true
  | some (.str s) => s ≠ "text/disconnect-notice" && s ≠ "text/event-json"
  | some _ => false

/-- auth (connection.rs:405-425) applied to the awaited reply event, paired
with the resulting connected flag (initially false, connection.rs:90).
The Reply-Text header is looked up (a typed InternalError when absent),
unwrapped as a string (line 413, a panic on a non-string value), parsed
by parse_api_response; OK stores connected := true and returns the text,
ERR is AuthFailed, UNKNOWN is an InternalError. -/
def auth_step (reply : Event) : Except String (Except EslError String × Bool) :=
  match assocGet reply.headers "Reply-Text" with
  | none =>
    .ok (.error (.InternalError "Reply-Text in auth request was not found"), false)
  | some v =>
    match v.as_str with
    | none => .error "called Option::unwrap on a None value"
    | some reply_text =>
      match parse_api_response reply_text with
      | .error e => .ok (.error e, false)
      | .ok (code, text) =>
        match code with
        | .Ok => .ok (.ok text, true)
        | .Err => .ok (.error .AuthFailed, false)
        | .Unknown =>
          .ok (.error (.InternalError "Got unknown code in auth request"), false)

/-- The command line auth sends (connection.rs:406-407). -/
def auth_command (password : String) : String :=
  "auth " ++ password

/-- The command line api sends (connection.rs:456). -/
def api_command (command : String) : String :=
  "api " ++ command

/-- api (connection.rs:455-468) applied to the awaited reply event: a typed
InternalError when the reply has no body, otherwise parse_api_response on
the body; OK yields the text, ERR an ApiError with the text, UNKNOWN the
whole body unchanged. -/
def api_process (event : Event) : Except EslError String :=
  match event.body with
  | none => .error (.InternalError "Didnt get body in api response")
  | some body =>
    match parse_api_response body with
    | .error e => .error e
    | .ok (code, text) =>
      match code with
      | .Ok => .ok text
      | .Err => .error (.ApiError text)
      | .Unknown => .ok body

/-- One observable step of bgapi, in the order the code performs them. -/
inductive BgAction where
  | insertJob : String → BgAction
  | sendBytes : String → BgAction
  | awaitAck : BgAction
  | awaitJob : String → BgAction
deriving DecidableEq, Repr

def BgAction.isInsert : BgAction → Bool
  | .insertJob _ => true
  | _ => false

def BgAction.isSend : BgAction → Bool
  | .sendBytes _ => true
  | _ => false

/-- The command line bgapi sends, with the job id embedded as a Job-UUID
header (connection.rs:480). -/
def bgapi_command (command job_uuid : String) : String :=
  "bgapi " ++ command ++ "\nJob-UUID: " ++ job_uuid

/-- bgapi step trace (connection.rs:471-483): insert the job slot into the
background job map under the fresh id (lines 474-478), then send the
command via send_recv and await its acknowledgement (lines 480-481),
then await the completion event on the job slot (line 483). -/
def bgapi_trace (command job_uuid : String) : List BgAction :=
  [.insertJob job_uuid, .sendBytes (bgapi_command command job_uuid),
    .awaitAck, .awaitJob job_uuid]

/-- HashMap.extend of the parsed body mapping over the headers of the
completion event (connection.rs:491-492): body entries inserted in order,
each replacing any existing binding of its key. -/
def mergeHeaders (headers body : List (String × JValue)) : List (String × JValue) :=
  body.foldl (fun acc kv => insertAssoc acc kv.1 kv.2) headers

/-- bgapi result extraction from the completion event
(connection.rs:483-502): a typed InternalError when the event has no
body; the body is JSON-parsed by the external collaborator (a serde
error becomes a typed failure per the From conversions); the body map is
merged over the headers; a missing _body key is a typed InternalError; a
non-string _body panics on the unwrap at line 496; the _body string goes
through parse_api_response, OK yielding its text, ERR an ApiError,
UNKNOWN the whole _body string. -/
def bgapi_process (resp : Event)
    (parseJson : String → Except EslError (List (String × JValue))) :
    Except String (Except EslError String) :=
  match resp.body with
  | none => .ok (.error (.InternalError "body was not found in event/json"))
  | some body =>
    match parseJson body with
    | .error e => .ok (.error e)
    | .ok body_hashmap =>
      let hsmp := mergeHeaders resp.headers body_hashmap
      match assocGet hsmp "_body" with
      | none => .ok (.error (.InternalError "body was not found in event/json"))
      | some v =>
        match v.as_str with
        | none => .error "called Option::unwrap on a None value"
        | some body2 =>
          match parse_api_response body2 with
          | .error e => .ok (.error e)
          | .ok (code, text) =>
            match code with
            | .Ok => .ok (.ok text)
            | .Err => .ok (.error (.ApiError text))
            | .Unknown => .ok (.ok body2)

/-- The sendmsg command execute builds (connection.rs:441). -/
def execute_command (call_uuid app_name app_args event_uuid : String) : String :=
  "sendmsg " ++ call_uuid ++ "\nexecute-app-name: " ++ app_name ++
    "\nexecute-app-arg: " ++ app_args ++ "\ncall-command: execute\nEvent-UUID: " ++
    event_uuid

/-- The prefix of execute (connection.rs:433-441) up to issuing the command:
a fresh event id and oneshot slot are created and inserted into the
background job map (lines 434-439), then self.call_uuid.as_ref().unwrap()
runs (line 440), panicking when no call id is bound; otherwise the
sendmsg command line is built. Returns the updated job map and the
command on success. -/
def execute_step (call_uuid : Option String) (app_name app_args event_uuid : String)
    (jobs : List (String × Nat)) (slot : Nat) :
    Except String (List (String × Nat) × String) :=
  let jobs1 := insertAssoc jobs event_uuid slot
  match call_uuid with
  | none => .error "called Option::unwrap on a None value"
  | some cu => .ok (jobs1, execute_command cu app_name app_args event_uuid)

/-- hangup (connection.rs:428-430) delegates to execute with the
application hangup and the reason as its argument. -/
def hangup_step (call_uuid : Option String) (reason event_uuid : String)
    (jobs : List (String × Nat)) (slot : Nat) :
    Except String (List (String × Nat) × String) :=
  execute_step call_uuid "hangup" reason event_uuid jobs slot

/-- answer (connection.rs:450-452) delegates to execute with the
application answer and an empty argument. -/
def answer_step (call_uuid : Option String) (event_uuid : String)
    (jobs : List (String × Nat)) (slot : Nat) :
    Except String (List (String × Nat) × String) :=
  execute_step call_uuid "answer" "" event_uuid jobs slot

/-- call_uuid of a freshly constructed connection after the bootstrap of
its type ran (connection.rs:85-93 and 214-247): the field starts as none
and only the Outbound branch assigns it (line 245); the Inbound branch
(lines 215-221) never does. -/
def bootstrap_call_uuid (t : EslConnectionType) (bound : Option String) :
    Option String :=
  match t with
  | .Inbound => none
  | .Outbound => bound

/-- The outbound bootstrap reading the call id out of the captured connect
reply headers (connection.rs:238-245): connection_info.get of
Channel-Unique-ID is unwrapped (a panic when the header is absent), then
unwrapped as a string (a panic on a non-string value). -/
def outbound_bind_call_uuid (connection_info : List (String × JValue)) :
    Except String String :=
  match assocGet connection_info "Channel-Unique-ID" with
  | none => .error "called Option::unwrap on a None value"
  | some v =>
    match v.as_str with
    | none => .error "called Option::unwrap on a None value"
    | some s => .ok s

/-- The body condition under which an event may fulfil the job registered
under J: a Job-UUID field equal to J, or no Job-UUID field together with
an Application-UUID field equal to J and an Event-Name field equal to
CHANNEL_EXECUTE_COMPLETE. -/
def matchesJob (J : String) (body : List (String × JValue)) : Prop :=
  assocGet body "Job-UUID" = some (.str J) ∨
    (assocGet body "Job-UUID" = none ∧
      assocGet body "Application-UUID" = some (.str J) ∧
      assocGet body "Event-Name" = some (.str "CHANNEL_EXECUTE_COMPLETE"))

instance (J : String) (body : List (String × JValue)) :
    Decidable (matchesJob J body) := by
  unfold matchesJob
  infer_instance

theorem assocGet_eraseKey {α : Type} (m : List (String × α)) (k j : String) :
    assocGet (eraseKey m k) j = if j = k then none else assocGet m j := by
  induction m with
  | nil => simp [eraseKey, assocGet]
  | cons kv rest ih =>
    obtain ⟨k0, v⟩ := kv
    simp only [eraseKey, List.filter_cons] at ih ⊢
    by_cases hk : k0 = k
    · subst hk
      rw [if_neg (by simp)]
      rw [ih]
      by_cases hj : j = k0
      · simp [hj]
      · have hj2 : ¬k0 = j := fun h => hj h.symm
        simp [assocGet, hj, hj2]
    · rw [if_pos (by simp [hk])]
      by_cases hj : k0 = j
      · have hjk : ¬j = k := by rw [← hj]; exact hk
        simp [assocGet, hj, hjk]
      · simp only [assocGet, if_neg hj]
        exact ih

theorem assocGet_insertAssoc {α : Type} (m : List (String × α)) (k j : String)
    (v : α) :
    assocGet (insertAssoc m k v) j = if k = j then some v else assocGet m j := by
  by_cases h : k = j
  · subst h
    simp [insertAssoc, assocGet]
  · have h2 : ¬j = k := fun hc => h hc.symm
    simp [insertAssoc, assocGet, h, assocGet_eraseKey, h2]

theorem fulfillJob_found (alive : Nat → Bool) (ev : Event) (u : String)
    (st : LoopState) (slot : Nat)
    (hu : assocGet st.background_jobs u = some slot)
    (ha : alive slot = true) :
    fulfillJob alive ev u st =
      ⟨{ st with background_jobs := eraseKey st.background_jobs u },
        [(slot, ev)], [], .cont⟩ := by
  simp [fulfillJob, hu, txSendExpect, ha]

theorem fulfillJob_missing (alive : Nat → Bool) (ev : Event) (u : String)
    (st : LoopState) (hu : assocGet st.background_jobs u = none) :
    fulfillJob alive ev u st = ⟨st, [], [], .cont⟩ := by
  simp [fulfillJob, hu]

theorem fulfillJob_preserves_other (alive : Nat → Bool) (ev : Event) (u : String)
    (st : LoopState) (J : String) (hne : u ≠ J) :
    assocGet (fulfillJob alive ev u st).st.background_jobs J =
      assocGet st.background_jobs J := by
  unfold fulfillJob
  cases hu : assocGet st.background_jobs u with
  | none => rfl
  | some slot =>
    unfold txSendExpect
    have hne2 : J ≠ u := Ne.symm hne
    by_cases ha : alive slot = true
    · simp [ha, assocGet_eraseKey, hne2]
    · simp only [Bool.not_eq_true] at ha
      simp [ha]

theorem fulfillJob_delivered_mem (alive : Nat → Bool) (ev : Event) (u : String)
    (st : LoopState) (s : Nat) (e : Event)
    (hmem : (s, e) ∈ (fulfillJob alive ev u st).delivered) :
    e = ev ∧ assocGet st.background_jobs u = some s := by
  unfold fulfillJob at hmem
  cases hu : assocGet st.background_jobs u with
  | none => simp [hu] at hmem
  | some slot =>
    rw [hu] at hmem
    unfold txSendExpect at hmem
    by_cases ha : alive slot = true
    · simp [ha] at hmem
      refine ⟨hmem.2, ?_⟩
      rw [hmem.1]
    · simp only [Bool.not_eq_true] at ha
      simp [ha] at hmem

theorem handle_message_plain (alive : Nat → Bool) (hl : Bool)
    (pj : String → Option (List (String × JValue))) (ev : Event) (st : LoopState)
    (h : isPlainReply ev = true) :
    handle_message alive hl pj ev st = popReply alive ev st := by
  unfold isPlainReply at h
  unfold handle_message
  cases hct : assocGet ev.headers "Content-Type" with
  | none => rfl
  | some v =>
    rw [hct] at h
    cases v with
    | str s =>
      simp only [Bool.and_eq_true, decide_eq_true_eq] at h
      simp [JValue.as_str, h.1, h.2]
    | num n => simp at h
    | bool b => simp at h
    | null => simp at h

theorem process_plain (hl : Bool) (pj : String → Option (List (String × JValue)))
    (msgs : List Event) (cmds : List Nat) (jobs : List (String × Nat))
    (hplain : ∀ ev ∈ msgs, isPlainReply ev = true) :
    process_messages (fun _ => true) hl pj msgs ⟨cmds, jobs⟩ =
      ⟨⟨cmds.drop msgs.length, jobs⟩, cmds.zip msgs, [], .cont⟩ := by
  induction msgs generalizing cmds with
  | nil => simp [process_messages]
  | cons ev evs ih =>
    have hev : isPlainReply ev = true := hplain ev (by simp)
    have hrest : ∀ e ∈ evs, isPlainReply e = true := fun e he =>
      hplain e (by simp [he])
    rw [show process_messages (fun _ => true) hl pj (ev :: evs) ⟨cmds, jobs⟩ =
        (let out := handle_message (fun _ => true) hl pj ev ⟨cmds, jobs⟩
         match out.result with
         | .cont =>
           let rest := process_messages (fun _ => true) hl pj evs out.st
           ⟨rest.st, out.delivered ++ rest.delivered, out.forwarded ++ rest.forwarded,
             rest.result⟩
         | r => ⟨out.st, out.delivered, out.forwarded, r⟩) from rfl]
    rw [handle_message_plain _ _ _ _ _ hev]
    cases cmds with
    | nil =>
      have hpop : popReply (fun _ => true) ev ⟨[], jobs⟩ =
          ⟨⟨[], jobs⟩, [], [], .cont⟩ := rfl
      rw [hpop]
      dsimp only
      rw [ih [] hrest]
      simp
    | cons c cs =>
      have hpop : popReply (fun _ => true) ev ⟨c :: cs, jobs⟩ =
          ⟨⟨cs, jobs⟩, [(c, ev)], [], .cont⟩ := by
        simp [popReply, txSendExpect]
      rw [hpop]
      dsimp only
      rw [ih cs hrest]
      simp [List.zip_cons_cons]

theorem run_send_recvs_commands (items : List String) (s : ConnState) :
    (run_send_recvs s items).1.commands = s.commands ++ (run_send_recvs s items).2 := by
  induction items generalizing s with
  | nil => simp [run_send_recvs]
  | cons item items ih =>
    simp only [run_send_recvs]
    rw [ih]
    show (send_recv s item).1.commands ++ _ = _
    simp [send_recv]

theorem findWhitespace_append (code : List Char) (c : Char) (rest : List Char)
    (hc : c.isWhitespace = true) (hcode : ∀ x ∈ code, x.isWhitespace = false) :
    findWhitespace (code ++ c :: rest) = some code.length := by
  induction code with
  | nil => simp [findWhitespace, hc]
  | cons a as ih =>
    have ha : a.isWhitespace = false := hcode a (by simp)
    have has : ∀ x ∈ as, x.isWhitespace = false := fun x hx => hcode x (by simp [hx])
    simp [findWhitespace, ha, ih has]

theorem parse_api_response_chars_split (code text : List Char)
    (hcode : ∀ x ∈ code, x.isWhitespace = false) :
    parse_api_response_chars (code ++ ' ' :: (text ++ ['\n'])) =
      .ok (parse_code (String.mk code), text) := by
  unfold parse_api_response_chars
  rw [findWhitespace_append code ' ' (text ++ ['\n']) (by decide) hcode]
  have h1 : (code ++ ' ' :: (text ++ ['\n'])).take code.length = code :=
    List.take_left code (' ' :: (text ++ ['\n']))
  have h2 : (code ++ ' ' :: (text ++ ['\n'])).drop (code.length + 1) =
      text ++ ['\n'] := by
    have hs : code ++ ' ' :: (text ++ ['\n']) = (code ++ [' ']) ++ (text ++ ['\n']) := by
      simp
    have hl : (code ++ [' ']).length = code.length + 1 := by simp
    rw [hs, ← hl, List.drop_left]
  have h3 : (code ++ ' ' :: (text ++ ['\n'])).length =
      code.length + text.length + 2 := by
    simp
    omega
  have h4 : code.length + 1 < code.length + text.length + 2 := by omega
  have h5 : code.length + text.length + 2 - 1 - (code.length + 1) = text.length := by
    omega
  have h6 : (text ++ ['\n']).take text.length = text := List.take_left text ['\n']
  dsimp only
  rw [h1, h3, if_pos h4, h2, h5, h6]

theorem assocGet_not_mem {α : Type} (m : List (String × α)) (k : String)
    (h : k ∉ m.map Prod.fst) : assocGet m k = none := by
  induction m with
  | nil => rfl
  | cons kv rest ih =>
    simp only [List.map_cons, List.mem_cons, not_or] at h
    have hne : ¬kv.1 = k := fun hc => h.1 hc.symm
    obtain ⟨k0, v⟩ := kv
    simp only [assocGet, if_neg hne]
    exact ih h.2

theorem mergeHeaders_lookup (body : List (String × JValue))
    (headers : List (String × JValue)) (k : String)
    (hnd : (body.map Prod.fst).Nodup) :
    assocGet (mergeHeaders headers body) k =
      match assocGet body k with
      | some v => some v
      | none => assocGet headers k := by
  induction body generalizing headers with
  | nil => simp [mergeHeaders, assocGet]
  | cons kv rest ih =>
    obtain ⟨k0, v0⟩ := kv
    simp only [List.map_cons, List.nodup_cons] at hnd
    have hmerge : mergeHeaders headers ((k0, v0) :: rest) =
        mergeHeaders (insertAssoc headers k0 v0) rest := rfl
    rw [hmerge, ih (insertAssoc headers k0 v0) hnd.2]
    by_cases hk : k0 = k
    · subst hk
      have hnone : assocGet rest k0 = none := assocGet_not_mem rest k0 hnd.1
      simp [assocGet, hnone, assocGet_insertAssoc]
    · simp only [assocGet, if_neg hk]
      cases assocGet rest k with
      | none =>
        have hk2 : ¬k = k0 := fun h => hk h.symm
        simp [insertAssoc, assocGet, hk, assocGet_eraseKey, hk2]
      | some v => rfl

theorem heb_match (alive : Nat → Bool) (hl : Bool) (ev : Event)
    (body : List (String × JValue)) (st : LoopState) (J : String) (slot : Nat)
    (hm : matchesJob J body)
    (hJ : assocGet st.background_jobs J = some slot) (ha : alive slot = true) :
    handle_event_body alive hl ev body st =
      ⟨{ st with background_jobs := eraseKey st.background_jobs J },
        [(slot, ev)], [], .cont⟩ := by
  rcases hm with hjb | ⟨hjb, hab, hen⟩
  · unfold handle_event_body
    rw [hjb]
    dsimp only [JValue.as_str]
    exact fulfillJob_found alive ev J st slot hJ ha
  · unfold handle_event_body
    rw [hjb, hab, hen]
    dsimp only [JValue.as_str]
    rw [if_pos rfl]
    exact fulfillJob_found alive ev J st slot hJ ha

theorem heb_no_match (alive : Nat → Bool) (hl : Bool) (ev : Event)
    (body : List (String × JValue)) (st : LoopState) (J : String)
    (hm : ¬matchesJob J body) :
    assocGet (handle_event_body alive hl ev body st).st.background_jobs J =
      assocGet st.background_jobs J := by
  unfold handle_event_body
  cases hjb : assocGet body "Job-UUID" with
  | some v =>
    cases v with
    | str K =>
      have hKJ : K ≠ J := by
        intro h
        exact hm (Or.inl (by rw [hjb, h]))
      dsimp only [JValue.as_str]
      exact fulfillJob_preserves_other alive ev K st J hKJ
    | num n => rfl
    | bool b => rfl
    | null => rfl
  | none =>
    cases hab : assocGet body "Application-UUID" with
    | none => rfl
    | some av =>
      cases av with
      | str K =>
        cases hen : assocGet body "Event-Name" with
        | none => rfl
        | some nv =>
          cases nv with
          | str name =>
            dsimp only [JValue.as_str]
            by_cases hname : name = "CHANNEL_EXECUTE_COMPLETE"
            · subst hname
              rw [if_pos rfl]
              have hKJ : K ≠ J := by
                intro h
                exact hm (Or.inr ⟨hjb, by rw [hab, h], hen⟩)
              exact fulfillJob_preserves_other alive ev K st J hKJ
            · rw [if_neg hname]
              rfl
          | num n => rfl
          | bool b => rfl
          | null => rfl
      | num n => rfl
      | bool b => rfl
      | null => rfl

theorem heb_delivered (alive : Nat → Bool) (hl : Bool) (ev : Event)
    (body : List (String × JValue)) (st : LoopState) (s : Nat) (e : Event)
    (hmem : (s, e) ∈ (handle_event_body alive hl ev body st).delivered) :
    e = ev ∧ ∃ u, assocGet st.background_jobs u = some s ∧ matchesJob u body := by
  unfold handle_event_body at hmem
  cases hjb : assocGet body "Job-UUID" with
  | some v =>
    rw [hjb] at hmem
    cases v with
    | str K =>
      dsimp only [JValue.as_str] at hmem
      obtain ⟨he, hget⟩ := fulfillJob_delivered_mem alive ev K st s e hmem
      exact ⟨he, K, hget, Or.inl hjb⟩
    | num n => simp [JValue.as_str] at hmem
    | bool b => simp [JValue.as_str] at hmem
    | null => simp [JValue.as_str] at hmem
  | none =>
    rw [hjb] at hmem
    cases hab : assocGet body "Application-UUID" with
    | none =>
      rw [hab] at hmem
      simp [forwardToListener] at hmem
    | some av =>
      rw [hab] at hmem
      cases av with
      | str K =>
        dsimp only [JValue.as_str] at hmem
        cases hen : assocGet body "Event-Name" with
        | none =>
          rw [hen] at hmem
          simp [forwardToListener] at hmem
        | some nv =>
          rw [hen] at hmem
          cases nv with
          | str name =>
            dsimp only [JValue.as_str] at hmem
            by_cases hname : name = "CHANNEL_EXECUTE_COMPLETE"
            · subst hname
              rw [if_pos rfl] at hmem
              obtain ⟨he, hget⟩ := fulfillJob_delivered_mem alive ev K st s e hmem
              exact ⟨he, K, hget, Or.inr ⟨hjb, hab, hen⟩⟩
            · rw [if_neg hname] at hmem
              simp [forwardToListener] at hmem
          | num n => simp [forwardToListener] at hmem
          | bool b => simp [forwardToListener] at hmem
          | null => simp [forwardToListener] at hmem
      | num n => simp [JValue.as_str] at hmem
      | bool b => simp [JValue.as_str] at hmem
      | null => simp [JValue.as_str] at hmem

theorem heb_match_missing (alive : Nat → Bool) (hl : Bool) (ev : Event)
    (body : List (String × JValue)) (st : LoopState) (J : String)
    (hm : matchesJob J body)
    (hJ : assocGet st.background_jobs J = none) :
    (handle_event_body alive hl ev body st).delivered = [] := by
  rcases hm with hjb | ⟨hjb, hab, hen⟩
  · unfold handle_event_body
    rw [hjb]
    dsimp only [JValue.as_str]
    rw [fulfillJob_missing alive ev J st hJ]
  · unfold handle_event_body
    rw [hjb, hab, hen]
    dsimp only [JValue.as_str]
    rw [if_pos rfl, fulfillJob_missing alive ev J st hJ]

/-- C1 counterexample: the claimed ordering is false at the concrete call
send_recv initConn "exit": the trace send_recv produces does not push the
slot onto the pending-reply queue before the command bytes are sent. -/
theorem send_recv_registration_order_counterexample :
    slotRegisteredBeforeSend (send_recv initConn "exit").2.2 = false := by decide

/-- C1 (amended): every invocation of send_recv performs its steps in the
order: write the serialized command to the socket, then create the
PendingReplySlot, then append it to the pending-reply queue under
exclusive access, then wait on the slot; the slot is registered in the
queue only after the command bytes are sent, the command is appended to
the wire log, and the new slot to the back of the queue. -/
theorem send_recv_sends_before_registering (s : ConnState) (item : String) :
    (∃ i j, i < j ∧
      (send_recv s item).2.2.get? i = some (.sendBytes item) ∧
      (send_recv s item).2.2.get? j = some (.pushSlot (send_recv s item).2.1)) ∧
    (send_recv s item).1.sent = s.sent ++ [item] ∧
    (send_recv s item).1.commands = s.commands ++ [(send_recv s item).2.1] :=
  ⟨⟨0, 2, by omega, rfl, rfl⟩, rfl, rfl⟩

/-- C2: a fulfilment attempt against an already dropped waiter is not a
silent no-op: with the receiving side of slot 0 dropped, delivering a
plain reply panics the receive loop through tx.send(event).expect with
message msg, and delivering a Job-UUID completion event panics it
through the bgapi expect. -/
theorem dropped_waiter_fulfillment_panics :
    (handle_message (fun _ => false) false (fun _ => none)
        ⟨[], none⟩ ⟨[0], []⟩).result = .panicked "msg" ∧
    (handle_message (fun _ => false) false
        (fun _ => some [("Job-UUID", .str "J")])
        ⟨[("Content-Type", .str "text/event-json")], some "b"⟩
        ⟨[], [("J", 0)]⟩).result =
      .panicked "Unable to send channel message from bgapi" :=
  ⟨rfl, rfl⟩

/-- C3: on a disconnect-notice with two slots pending, the loop removes and
discards only the front slot; the second slot stays in the queue with no
delivery and no failure signalled to its caller, and the iteration does
not terminate the loop cleanly: it blocks forever re-acquiring the queue
lock still held by the if-let scrutinee guard. -/
theorem disconnect_notice_leaves_pending_slots :
    handle_message (fun _ => true) false (fun _ => none)
        ⟨[("Content-Type", .str "text/disconnect-notice")], none⟩ ⟨[0, 1], []⟩ =
      ⟨⟨[1], []⟩, [], [], .deadlock⟩ := rfl

/-- C4: peer-suppliable messages on which the engine panics instead of
returning a typed failure: an event-json message with no body, an
event-json message whose body fails to parse as JSON, an event-json body
whose Job-UUID field is not a string, and a connect reply without a
Channel-Unique-ID header during the outbound bootstrap. -/
theorem peer_supplied_input_panics :
    (handle_message (fun _ => true) false (fun _ => none)
        ⟨[("Content-Type", .str "text/event-json")], none⟩ ⟨[], []⟩).result =
      .panicked "Unable to get body of event-json" ∧
    (handle_message (fun _ => true) false (fun _ => none)
        ⟨[("Content-Type", .str "text/event-json")], some "not json"⟩ ⟨[], []⟩).result =
      .panicked "Unable to parse body of event-json" ∧
    (handle_message (fun _ => true) false (fun _ => some [("Job-UUID", .num 3)])
        ⟨[("Content-Type", .str "text/event-json")], some "b"⟩ ⟨[], []⟩).result =
      .panicked "called Option::unwrap on a None value" ∧
    outbound_bind_call_uuid [] = .error "called Option::unwrap on a None value" :=
  ⟨rfl, rfl, rfl, rfl⟩

/-- C5: from a fresh connection, issuing N commands through send_recv and
then letting the receive loop process a sequence of plain reply messages
(neither disconnect-notice nor event-json) in order fulfils the slot of
the i-th command with the i-th reply for every position, with the loop
still running afterwards. -/
theorem send_recv_fifo_correlation (items : List String) (msgs : List Event)
    (hasListener : Bool) (parseJson : String → Option (List (String × JValue)))
    (hplain : ∀ ev ∈ msgs, isPlainReply ev = true) :
    (process_messages (fun _ => true) hasListener parseJson msgs
        ⟨(run_send_recvs initConn items).1.commands, []⟩).delivered =
      (run_send_recvs initConn items).2.zip msgs ∧
    (process_messages (fun _ => true) hasListener parseJson msgs
        ⟨(run_send_recvs initConn items).1.commands, []⟩).result = .cont ∧
    ∀ i s ev, (run_send_recvs initConn items).2.get? i = some s →
      msgs.get? i = some ev →
      (process_messages (fun _ => true) hasListener parseJson msgs
          ⟨(run_send_recvs initConn items).1.commands, []⟩).delivered.get? i =
        some (s, ev) := by
  have hcmds : (run_send_recvs initConn items).1.commands =
      (run_send_recvs initConn items).2 := by
    have h := run_send_recvs_commands items initConn
    simpa [initConn] using h
  rw [process_plain hasListener parseJson msgs
    (run_send_recvs initConn items).1.commands [] hplain]
  refine ⟨by rw [hcmds], rfl, ?_⟩
  intro i s ev hs hev
  show ((run_send_recvs initConn items).1.commands.zip msgs).get? i = some (s, ev)
  rw [hcmds]
  exact (List.get?_zip_eq_some _ _ (s, ev) i).2 ⟨hs, hev⟩

/-- C5 witness: two commands then two plain replies from the fresh state. -/
theorem send_recv_fifo_correlation_witness :
    (∀ ev ∈ [Event.mk [] (some "r1"), Event.mk [] (some "r2")],
      isPlainReply ev = true) ∧
    ((process_messages (fun _ => true) false (fun _ => none)
        [Event.mk [] (some "r1"), Event.mk [] (some "r2")]
        ⟨(run_send_recvs initConn ["c1", "c2"]).1.commands, []⟩).delivered =
      (run_send_recvs initConn ["c1", "c2"]).2.zip
        [Event.mk [] (some "r1"), Event.mk [] (some "r2")] ∧
    (process_messages (fun _ => true) false (fun _ => none)
        [Event.mk [] (some "r1"), Event.mk [] (some "r2")]
        ⟨(run_send_recvs initConn ["c1", "c2"]).1.commands, []⟩).result = .cont ∧
    ∀ i s ev, (run_send_recvs initConn ["c1", "c2"]).2.get? i = some s →
      [Event.mk [] (some "r1"), Event.mk [] (some "r2")].get? i = some ev →
      (process_messages (fun _ => true) false (fun _ => none)
          [Event.mk [] (some "r1"), Event.mk [] (some "r2")]
          ⟨(run_send_recvs initConn ["c1", "c2"]).1.commands, []⟩).delivered.get? i =
        some (s, ev)) :=
  ⟨by decide,
    send_recv_fifo_correlation ["c1", "c2"]
      [Event.mk [] (some "r1"), Event.mk [] (some "r2")] false (fun _ => none)
      (by decide)⟩

/-- C6: for a slot registered in the background job map under J with a live
waiter, the event-json handler leaves the binding of J untouched on any
body not carrying J (in the Job-UUID field, or in the Application-UUID
field with Event-Name CHANNEL_EXECUTE_COMPLETE and no Job-UUID field);
on a body carrying J it delivers the event to exactly that slot and
removes the binding, so running the same body again delivers nothing;
and every delivery the handler ever makes goes to a slot registered
under an identifier the body carries. -/
theorem background_job_fulfillment (alive : Nat → Bool) (hasListener : Bool)
    (ev : Event) (body : List (String × JValue)) (st : LoopState)
    (J : String) (slot : Nat)
    (hJ : assocGet st.background_jobs J = some slot)
    (halive : alive slot = true) :
    (¬matchesJob J body →
      assocGet (handle_event_body alive hasListener ev body st).st.background_jobs J =
        some slot) ∧
    (matchesJob J body →
      (handle_event_body alive hasListener ev body st).delivered = [(slot, ev)] ∧
      assocGet (handle_event_body alive hasListener ev body st).st.background_jobs J =
        none ∧
      (handle_event_body alive hasListener ev body
          (handle_event_body alive hasListener ev body st).st).delivered = []) ∧
    (∀ s e, (s, e) ∈ (handle_event_body alive hasListener ev body st).delivered →
      e = ev ∧ ∃ u, assocGet st.background_jobs u = some s ∧ matchesJob u body) := by
  refine ⟨?_, ?_, ?_⟩
  · intro hm
    rw [heb_no_match alive hasListener ev body st J hm]
    exact hJ
  · intro hm
    rw [heb_match alive hasListener ev body st J slot hm hJ halive]
    refine ⟨rfl, ?_, ?_⟩
    · show assocGet (eraseKey st.background_jobs J) J = none
      rw [assocGet_eraseKey]
      simp
    · apply heb_match_missing alive hasListener ev body _ J hm
      show assocGet (eraseKey st.background_jobs J) J = none
      rw [assocGet_eraseKey]
      simp
  · intro s e hmem
    exact heb_delivered alive hasListener ev body st s e hmem

/-- C6 witness: a single job slot under J, fulfilled by a Job-UUID = J body. -/
theorem background_job_fulfillment_witness :
    (¬matchesJob "J" [("Job-UUID", JValue.str "J")] →
      assocGet (handle_event_body (fun _ => true) false ⟨[], none⟩
          [("Job-UUID", JValue.str "J")] ⟨[], [("J", 5)]⟩).st.background_jobs "J" =
        some 5) ∧
    (matchesJob "J" [("Job-UUID", JValue.str "J")] →
      (handle_event_body (fun _ => true) false ⟨[], none⟩
          [("Job-UUID", JValue.str "J")] ⟨[], [("J", 5)]⟩).delivered =
        [(5, ⟨[], none⟩)] ∧
      assocGet (handle_event_body (fun _ => true) false ⟨[], none⟩
          [("Job-UUID", JValue.str "J")] ⟨[], [("J", 5)]⟩).st.background_jobs "J" =
        none ∧
      (handle_event_body (fun _ => true) false ⟨[], none⟩
          [("Job-UUID", JValue.str "J")]
          (handle_event_body (fun _ => true) false ⟨[], none⟩
            [("Job-UUID", JValue.str "J")] ⟨[], [("J", 5)]⟩).st).delivered = []) ∧
    (∀ s e, (s, e) ∈ (handle_event_body (fun _ => true) false ⟨[], none⟩
        [("Job-UUID", JValue.str "J")] ⟨[], [("J", 5)]⟩).delivered →
      e = (⟨[], none⟩ : Event) ∧
        ∃ u, assocGet ([("J", 5)] : List (String × Nat)) u = some s ∧
          matchesJob u [("Job-UUID", JValue.str "J")]) :=
  background_job_fulfillment (fun _ => true) false ⟨[], none⟩
    [("Job-UUID", JValue.str "J")] ⟨[], [("J", 5)]⟩ "J" 5 rfl rfl

/-- C7: auth parses the Reply-Text header of the awaited reply through the
response-code parser; code OK yields the trailing text with the
connected flag set true, code ERR fails with AuthFailed with the flag
still false, and any other code yields an internal-error condition with
the flag still false. -/
theorem auth_response_code_dispatch (reply : Event) (rt : String) (c : Code)
    (t : String)
    (h1 : assocGet reply.headers "Reply-Text" = some (.str rt))
    (h2 : parse_api_response rt = .ok (c, t)) :
    auth_step reply = .ok (match c with
      | .Ok => (.ok t, true)
      | .Err => (.error .AuthFailed, false)
      | .Unknown =>
        (.error (.InternalError "Got unknown code in auth request"), false)) := by
  unfold auth_step
  rw [h1]
  dsimp only [JValue.as_str]
  cases c <;> simp [h2]

/-- C7 witness: the correct-password reply sets connected true and returns
the trailing text; the wrong-password reply is AuthFailed with connected
still false. -/
theorem auth_response_code_dispatch_witness :
    auth_step ⟨[("Reply-Text", JValue.str "+OK accepted\n")], none⟩ =
      .ok (.ok "accepted", true) ∧
    auth_step ⟨[("Reply-Text", JValue.str "-ERR invalid\n")], none⟩ =
      .ok (.error .AuthFailed, false) :=
  ⟨auth_response_code_dispatch ⟨[("Reply-Text", JValue.str "+OK accepted\n")], none⟩
      "+OK accepted\n" .Ok "accepted" rfl rfl,
    auth_response_code_dispatch ⟨[("Reply-Text", JValue.str "-ERR invalid\n")], none⟩
      "-ERR invalid\n" .Err "invalid" rfl rfl⟩

/-- C8: api sends the line api followed by the command; the reply body is
parsed by splitting at the first whitespace, the remainder minus the
trailing terminator character being the text; the body with code +OK and
text status-text yields success with that text, and the body with code
-ERR and text reason yields an ApiError carrying reason. -/
theorem api_response_parsing (cmd : String) (code text : List Char)
    (hcode : ∀ ch ∈ code, ch.isWhitespace = false) :
    api_command cmd = "api " ++ cmd ∧
    parse_api_response_chars (code ++ ' ' :: (text ++ ['\n'])) =
      .ok (parse_code (String.mk code), text) ∧
    api_process ⟨[], some "+OK status-text\n"⟩ = .ok "status-text" ∧
    api_process ⟨[], some "-ERR reason\n"⟩ = .error (.ApiError "reason") :=
  ⟨rfl, parse_api_response_chars_split code text hcode, rfl, rfl⟩

/-- C8 witness: the split property at the concrete code token +OK and text
status-text, together with the two concrete api bodies. -/
theorem api_response_parsing_witness :
    (∀ ch ∈ "+OK".data, ch.isWhitespace = false) ∧
    (api_command "status" = "api " ++ "status" ∧
    parse_api_response_chars ("+OK".data ++ ' ' :: ("status-text".data ++ ['\n'])) =
      .ok (parse_code (String.mk "+OK".data), "status-text".data) ∧
    api_process ⟨[], some "+OK status-text\n"⟩ = .ok "status-text" ∧
    api_process ⟨[], some "-ERR reason\n"⟩ = .error (.ApiError "reason")) :=
  ⟨by decide, api_response_parsing "status" "+OK".data "status-text".data (by decide)⟩

/-- C9: bgapi registers the job slot before sending (the insert step
strictly precedes the send step in its trace), the sent line embeds the
fresh identifier as a Job-UUID header, the merge of the parsed body over
the event headers gives body fields precedence on key collision, and a
completion event whose JSON body maps _body to the +OK job-result line
yields success with text job-result. -/
theorem bgapi_registration_merge_and_result (cmd job_uuid : String)
    (headers body : List (String × JValue)) (k : String) (v : JValue)
    (hnd : (body.map Prod.fst).Nodup) (hk : assocGet body k = some v) :
    (∃ i j, i < j ∧
      (bgapi_trace cmd job_uuid).get? i = some (.insertJob job_uuid) ∧
      (bgapi_trace cmd job_uuid).get? j =
        some (.sendBytes (bgapi_command cmd job_uuid))) ∧
    bgapi_command cmd job_uuid = "bgapi " ++ cmd ++ "\nJob-UUID: " ++ job_uuid ∧
    assocGet (mergeHeaders headers body) k = some v ∧
    bgapi_process ⟨[("Content-Type", .str "text/event-json")], some "X"⟩
        (fun _ => .ok [("_body", .str "+OK job-result\n")]) =
      .ok (.ok "job-result") := by
  refine ⟨⟨0, 1, by omega, rfl, rfl⟩, rfl, ?_, rfl⟩
  rw [mergeHeaders_lookup body headers k hnd, hk]

/-- C9 witness: a body mapping that collides with an event header on the
key _body; the body value wins in the merge. -/
theorem bgapi_registration_merge_and_result_witness :
    ((([("_body", JValue.str "+OK j\n")] :
        List (String × JValue)).map Prod.fst).Nodup ∧
      assocGet [("_body", JValue.str "+OK j\n")] "_body" =
        some (JValue.str "+OK j\n")) ∧
    ((∃ i j, i < j ∧
      (bgapi_trace "originate x" "job-1").get? i = some (.insertJob "job-1") ∧
      (bgapi_trace "originate x" "job-1").get? j =
        some (.sendBytes (bgapi_command "originate x" "job-1"))) ∧
    bgapi_command "originate x" "job-1" =
      "bgapi " ++ "originate x" ++ "\nJob-UUID: " ++ "job-1" ∧
    assocGet (mergeHeaders [("_body", JValue.str "stale")]
        [("_body", JValue.str "+OK j\n")]) "_body" =
      some (JValue.str "+OK j\n") ∧
    bgapi_process ⟨[("Content-Type", .str "text/event-json")], some "X"⟩
        (fun _ => .ok [("_body", .str "+OK job-result\n")]) =
      .ok (.ok "job-result")) :=
  ⟨⟨by decide, rfl⟩,
    bgapi_registration_merge_and_result "originate x" "job-1"
      [("_body", JValue.str "stale")] [("_body", JValue.str "+OK j\n")]
      "_body" (JValue.str "+OK j\n") (by decide) rfl⟩

/-- C10: every connection built through the inbound bootstrap has no bound
call identifier, and execute with no bound call identifier panics on
the unwrap of call_uuid instead of returning a typed failure (the job
slot is already inserted when the panic fires); hangup and answer are
execute with the applications hangup and answer. -/
theorem execute_panics_without_call_uuid (app_name app_args event_uuid
    reason : String) (jobs : List (String × Nat)) (slot : Nat) :
    (∀ b : Option String, bootstrap_call_uuid .Inbound b = none) ∧
    execute_step none app_name app_args event_uuid jobs slot =
      .error "called Option::unwrap on a None value" ∧
    hangup_step none reason event_uuid jobs slot =
      execute_step none "hangup" reason event_uuid jobs slot ∧
    answer_step none event_uuid jobs slot =
      execute_step none "answer" "" event_uuid jobs slot :=
  ⟨fun _ => rfl, rfl, rfl, rfl⟩
